import Mathlib

/-!
Verification of the renogy-dashboard proxy/display layer.

The server (`server.js`, given here as `src/unnamed/part_000`) signs and
forwards requests to the vendor API, applies a 60-second response cache,
and aggregates a two-level device tree into one dashboard payload.
The browser side (`src/public/app.js`) reshapes the payload into
per-location views and computes derived display values.

This file shallowly embeds those functions: JavaScript values are the
inductive `JsVal` (with JS truthiness), the cache is an association list
threaded explicitly together with an explicit clock, network I/O is an
oracle function, and the HMAC primitive (an external library call) is an
abstract function parameter.
-/

/-- JavaScript runtime values, as far as this code base observes them:
`undefined`, `null`, booleans, (integer) numbers, strings, objects and
arrays.  Fractional numbers never reach a truthiness or member-access
check in this code, so numbers are modelled as integers. -/
inductive JsVal where
  | vUndefined
  | vNull
  | vBool (b : Bool)
  | vNum (n : Int)
  | vStr (s : String)
  | vObj (fields : List (String × JsVal))
  | vArr (elems : List JsVal)

/-- JavaScript truthiness: `undefined`, `null`, `false`, `0` and `""` are
falsy; every object and array is truthy. -/
def jsTruthy : JsVal → Bool
  | .vUndefined => false
  | .vNull => false
  | .vBool b => b
  | .vNum n => n != 0
  | .vStr s => s != ""
  | .vObj _ => true
  | .vArr _ => true

/-- JavaScript `a || b`. -/
def jsOr (a b : JsVal) : JsVal := if jsTruthy a then a else b

/-- JavaScript member access `v.k`: throws a `TypeError` on `null` and
`undefined`, yields the field on objects (or `undefined` when absent), and
yields `undefined` on other primitives (which have no such property). -/
def jsMember (v : JsVal) (k : String) : Except String JsVal :=
  match v with
  | .vNull => .error ("TypeError: Cannot read properties of null (reading " ++ k ++ ")")
  | .vUndefined => .error ("TypeError: Cannot read properties of undefined (reading " ++ k ++ ")")
  | .vObj fields => .ok (((fields.find? (fun f => f.1 = k)).map (fun f => f.2)).getD .vUndefined)
  | _ => .ok .vUndefined

/-- Collapse the Lean-side `Option` coming out of the cache lookup back into
the JavaScript value it models (`getFromCache` returns `null` or the data). -/
def jsOfOption (o : Option JsVal) : JsVal := o.getD .vNull

/-! ## Cache (`server.js` lines 18-43)

`const CACHE_TTL = 60000; const cache = new Map();` with helpers
`getFromCache` / `setCache`.  The `Map` is modelled as an association list
threaded through explicitly, and `Date.now()` as an explicit `now : Nat`
(milliseconds). -/

/-- `CACHE_TTL = 60000` (60 seconds). -/
def CACHE_TTL : Nat := 60000

/-- A cache entry: `{ data, timestamp }` as stored by `setCache`. -/
structure CacheEntry where
  data : JsVal
  timestamp : Nat

/-- The cache `Map`, as an association list from keys to entries. -/
abbrev Cache := List (String × CacheEntry)

/-- `cache.get(key)`. -/
def cacheLookup (c : Cache) (k : String) : Option CacheEntry :=
  ((c.find? (fun e => e.1 = k)).map (fun e => e.2))

/-- `cache.delete(key)`. -/
def cacheDelete (c : Cache) (k : String) : Cache :=
  c.filter (fun e => ¬ (e.1 = k))

/-- `setCache(key, data)`: `cache.set(key, { data, timestamp: Date.now() })`.
`Map.set` replaces any previous binding of the key. -/
def setCache (c : Cache) (k : String) (data : JsVal) (now : Nat) : Cache :=
  (k, ⟨data, now⟩) :: cacheDelete c k

/-- `getFromCache(key)` (`server.js` lines 26-36): absent keys yield `null`;
an entry older than `CACHE_TTL` is deleted and yields `null`; otherwise the
stored `data` is returned.  The (possibly shrunk) cache is returned
alongside, since `cache.delete` mutates the shared `Map`. -/
def getFromCache (c : Cache) (k : String) (now : Nat) : Option JsVal × Cache :=
  match cacheLookup c k with
  | none => (none, c)
  | some e =>
    if now - e.timestamp > CACHE_TTL then (none, cacheDelete c k)
    else (some e.data, c)

/-! ## Cache keys (`server.js` lines 22-24)

`getCacheKey(endpoint, params)` returns
`` `${endpoint}:${JSON.stringify(params)}` ``.  The parameter objects this
code base passes to `renogyRequest` are flat JavaScript objects whose
values are strings or integer numbers, in a fixed insertion order, so they
are modelled as association lists over `PVal`.  `JSON.stringify` is
modelled character by character: string keys/values are quoted with `"`
and `\` escaped (the only escapes this app's parameter strings can need;
control-character escapes are not modelled), numbers are printed in
decimal, and pairs are joined with `,` inside braces. -/

/-- A parameter value: the strings and (integer) numbers the server passes
in its `params` objects. -/
inductive PVal where
  | pStr (s : String)
  | pNum (n : Int)
deriving DecidableEq

/-- The left-brace character, `JSON.stringify`'s object opener. -/
def lbrace : Char := Char.ofNat 123

/-- The right-brace character, `JSON.stringify`'s object closer. -/
def rbrace : Char := Char.ofNat 125

/-- `JSON.stringify` escaping of one string character: `"` and `\` are
backslash-escaped, everything else is kept. -/
def escChar (c : Char) : List Char :=
  if c = '"' ∨ c = '\\' then ['\\', c] else [c]

/-- `JSON.stringify` escaping of string contents. -/
def escape : List Char → List Char
  | [] => []
  | c :: t => escChar c ++ escape t

/-- A serialized JSON string literal: `"` + escaped contents + `"`. -/
def serStr (s : String) : List Char :=
  '"' :: (escape s.data ++ ['"'])

/-- The decimal digit character for `d` (`d < 10`). -/
def digitChar (d : Nat) : Char := Char.ofNat (48 + d)

/-- The decimal digits of `n`, least-significant first. -/
def natDigitsRev (n : Nat) : List Char :=
  if _h : n < 10 then [digitChar n]
  else digitChar (n % 10) :: natDigitsRev (n / 10)
termination_by n
decreasing_by exact Nat.div_lt_self (by omega) (by omega)

/-- The decimal digits of `n`, most-significant first (as printed). -/
def natChars (n : Nat) : List Char := (natDigitsRev n).reverse

/-- The decimal printing of an integer, with a `-` sign when negative. -/
def intChars (n : Int) : List Char :=
  if n < 0 then '-' :: natChars n.natAbs else natChars n.natAbs

/-- A serialized JSON value. -/
def serVal : PVal → List Char
  | .pStr s => serStr s
  | .pNum n => intChars n

/-- A serialized JSON object member: `"key":value`. -/
def serPair (p : String × PVal) : List Char :=
  serStr p.1 ++ ':' :: serVal p.2

/-- Serialized JSON object members, joined with `,`. -/
def serPairs : List (String × PVal) → List Char
  | [] => []
  | [p] => serPair p
  | p :: q :: t => serPair p ++ ',' :: serPairs (q :: t)

/-- The characters of `JSON.stringify(params)`. -/
def stringifyChars (ps : List (String × PVal)) : List Char :=
  lbrace :: (serPairs ps ++ [rbrace])

/-- `JSON.stringify(params)` for the flat parameter objects of this app. -/
def jsonStringify (ps : List (String × PVal)) : String :=
  ⟨stringifyChars ps⟩

/-- `getCacheKey(endpoint, params)` (`server.js` lines 22-24):
`` `${endpoint}:${JSON.stringify(params)}` ``. -/
def getCacheKey (endpoint : String) (params : List (String × PVal)) : String :=
  endpoint ++ ":" ++ jsonStringify params

/-! ## Parameter serialization for the request URL

`new URLSearchParams(params).toString()` -- `application/x-www-form-urlencoded`:
keys and values are percent-encoded over their UTF-8 bytes (with space as
`+`), and `key=value` items are joined with `&`. -/

/-- The hexadecimal digit character for `n < 16` (uppercase, as
`URLSearchParams` produces). -/
def hexDigit (n : Nat) : Char :=
  if n < 10 then Char.ofNat (48 + n) else Char.ofNat (55 + n)

/-- Percent-encode one UTF-8 byte in `application/x-www-form-urlencoded`
style: ASCII alphanumerics and `*-._` are kept, space becomes `+`, every
other byte becomes `%XX`. -/
def encodeByte (b : UInt8) : List Char :=
  let n := b.toNat
  if (65 ≤ n ∧ n ≤ 90) ∨ (97 ≤ n ∧ n ≤ 122) ∨ (48 ≤ n ∧ n ≤ 57)
      ∨ n = 42 ∨ n = 45 ∨ n = 46 ∨ n = 95 then [Char.ofNat n]
  else if n = 32 then ['+']
  else ['%', hexDigit (n / 16), hexDigit (n % 16)]

/-- Percent-encode a string over its UTF-8 bytes. -/
def formEncode (s : String) : String :=
  ⟨s.toUTF8.toList.flatMap encodeByte⟩

/-- The string a `PVal` contributes to a query string (`URLSearchParams`
stringifies numbers in decimal). -/
def pvalString : PVal → String
  | .pStr s => s
  | .pNum n => ⟨intChars n⟩

/-- `new URLSearchParams(params).toString()`. -/
def urlParamsToString (ps : List (String × PVal)) : String :=
  String.intercalate "&"
    (ps.map (fun kv => formEncode kv.1 ++ "=" ++ formEncode (pvalString kv.2)))

/-! ## Signer (`server.js` lines 45-51)

`calcSign(url, paramStr, ts, secretKey)` builds `` `${ts}.${url}.${paramStr}` ``
and returns `crypto.createHmac('sha256', secretKey).update(strToSign).digest('base64')`.
The HMAC-SHA256-then-base64 primitive lives in Node's `crypto` library
(outside this repository), so it is taken as an abstract function
`hmacSha256Base64 : (key msg : String) → String`. -/

/-- The exact string `calcSign` signs: `` `${ts}.${url}.${paramStr}` ``
with the timestamp in decimal milliseconds. -/
def strToSign (url paramStr : String) (ts : Nat) : String :=
  toString ts ++ "." ++ url ++ "." ++ paramStr

/-- `calcSign(url, paramStr, ts, secretKey)`, with the library HMAC
primitive abstract. -/
def calcSign (hmacSha256Base64 : String → String → String)
    (url paramStr : String) (ts : Nat) (secretKey : String) : String :=
  hmacSha256Base64 secretKey (strToSign url paramStr ts)

/-! ## Upstream client (`server.js` lines 53-88)

`renogyRequest(endpoint, params)`: check the cache (`if (cached) return cached;`
-- note this is JS truthiness on the *payload*), otherwise take a fresh
timestamp, sign, issue the GET with `Access-Key` / `Timestamp` / `Signature`
headers, cache the response body on success and return it, or rethrow the
error.  The network is an oracle `net : NetCall → Except String JsVal`
(axios resolving with `response.data` or rejecting with a message), and the
model returns the result together with the updated cache and the list of
network calls issued. -/

/-- `RENOGY_BASE_URL`. -/
def RENOGY_BASE_URL : String := "https://openapi.renogy.com"

/-- The environment credentials (`ACCESS_KEY`, `SECRET_KEY`). -/
structure Env where
  accessKey : String
  secretKey : String

/-- One outbound `axios.get`: the full URL and the three authentication
headers the code attaches. -/
structure NetCall where
  url : String
  accessKeyHeader : String
  timestampHeader : String
  signatureHeader : String
deriving DecidableEq

/-- The result of `renogyRequest`: the returned (or thrown) value, the
cache afterwards, and the network calls made. -/
structure ReqOutcome where
  result : Except String JsVal
  cache : Cache
  netCalls : List NetCall

/-- The authenticated GET `renogyRequest` assembles on a cache miss
(`server.js` lines 63-77): `timestamp = Date.now()`, `url = endpoint`,
`paramStr = new URLSearchParams(params).toString()`,
`signature = calcSign(url, paramStr, timestamp, SECRET_KEY)`,
`` fullUrl = `${RENOGY_BASE_URL}${endpoint}${paramStr ? '?' + paramStr : ''}` ``,
with headers `Access-Key`, `Timestamp` and `Signature`. -/
def missCall (hmac : String → String → String) (env : Env) (now : Nat)
    (endpoint : String) (params : List (String × PVal)) : NetCall :=
  let timestamp := now
  let url := endpoint
  let paramStr := urlParamsToString params
  let signature := calcSign hmac url paramStr timestamp env.secretKey
  let fullUrl := RENOGY_BASE_URL ++ endpoint ++
    (if paramStr ≠ "" then "?" ++ paramStr else "")
  { url := fullUrl
    accessKeyHeader := env.accessKey
    timestampHeader := toString timestamp
    signatureHeader := signature }

/-- `renogyRequest(endpoint, params)` (`server.js` lines 54-88), with the
clock (`Date.now()`), the HMAC primitive and the network as parameters. -/
def renogyRequest (hmac : String → String → String) (env : Env)
    (net : NetCall → Except String JsVal) (c : Cache) (now : Nat)
    (endpoint : String) (params : List (String × PVal)) : ReqOutcome :=
  let cacheKey := getCacheKey endpoint params
  let looked := getFromCache c cacheKey now
  let cached := jsOfOption looked.1
  if jsTruthy cached then
    { result := .ok cached, cache := looked.2, netCalls := [] }
  else
    let call := missCall hmac env now endpoint params
    match net call with
    | .ok respData =>
      { result := .ok respData
        cache := setCache looked.2 cacheKey respData now
        netCalls := [call] }
    | .error e =>
      { result := .error e, cache := looked.2, netCalls := [call] }

/-! ## Dashboard aggregator (`server.js` lines 204-275)

`GET /api/dashboard`: fetch `/device/list`; on failure answer with the
error envelope `{ error: 'Failed to fetch dashboard data', details }`.
Otherwise enrich every device: latest data and alarms (each call's failure
replaced by `.catch` fallbacks `{ data: {} }` / `[]`), and likewise for
every sub-device in `sublist`.  The upstream client is abstracted as an
`Upstream` oracle (its caching is internal to `renogyRequest` and
irrelevant to the aggregation shape), and the calls the aggregator issues
to it are logged as `ApiCall`s. -/

/-- A sub-device as delivered by `/device/list`: the fields this code
reads (`deviceId`) plus passthrough display fields spread by
`{ ...subDevice }`. -/
structure SubDevice where
  deviceId : String
  name : String
  category : String
deriving DecidableEq

/-- A top-level device from `/device/list`: `deviceId` and the optional
`sublist`. -/
structure Device where
  deviceId : String
  name : String
  category : String
  sublist : Option (List SubDevice)

/-- The upstream client as the aggregator sees it: the `/device/list`
payload (decoded), and the raw responses of `/device/data/latest/:id` and
`/device/alarm/:id` per device id. -/
structure Upstream where
  deviceList : Except String (List Device)
  latest : String → Except String JsVal
  alarm : String → Except String JsVal

/-- One request the aggregator hands to the upstream client. -/
inductive ApiCall where
  | deviceList
  | latestData (deviceId : String)
  | alarms (deviceId : String)
deriving DecidableEq

/-- A sub-device record in the dashboard payload:
`{ ...subDevice, latestData, alarms }` plus the optional `error` field the
catch handler would add. -/
structure EnrichedSub where
  base : SubDevice
  latestData : JsVal
  alarms : JsVal
  error : Option String

/-- A top-level device record in the dashboard payload. -/
structure EnrichedDevice where
  base : Device
  latestData : JsVal
  alarms : JsVal
  sublist : List EnrichedSub
  error : Option String

/-- The error envelope `{ error, details }` of the dashboard route's catch
handler. -/
structure ErrEnvelope where
  error : String
  details : String
deriving DecidableEq

/-- `renogyRequest('/device/data/latest/' + id).catch(() => ({ data: {} }))`. -/
def fetchLatest (up : Upstream) (id : String) : JsVal :=
  match up.latest id with
  | .ok v => v
  | .error _ => .vObj [("data", .vObj [])]

/-- `renogyRequest('/device/alarm/' + id).catch(() => [])`. -/
def fetchAlarm (up : Upstream) (id : String) : JsVal :=
  match up.alarm id with
  | .ok v => v
  | .error _ => .vArr []

/-- Enrichment of one sub-device (`server.js` lines 224-245): both fetches
carry `.catch` fallbacks, so only the member access `subLatest.data`
(a `TypeError` when the resolved payload is `null`/`undefined`) can reach
the `catch (err)` handler that attaches the `error` marker. -/
def enrichSub (up : Upstream) (sd : SubDevice) : EnrichedSub :=
  let subLatest := fetchLatest up sd.deviceId
  let subAlarms := fetchAlarm up sd.deviceId
  match jsMember subLatest "data" with
  | .ok d =>
    { base := sd
      latestData := jsOr d (.vObj [])
      alarms := jsOr subAlarms (.vArr [])
      error := none }
  | .error msg =>
    { base := sd, latestData := .vObj [], alarms := .vArr [], error := some msg }

/-- Enrichment of one top-level device (`server.js` lines 212-264): same
fallbacks as for sub-devices; the sub-device fan-out runs first, and if
`latest.data` throws, the catch handler answers with an *empty* `sublist`. -/
def enrichDevice (up : Upstream) (d : Device) : EnrichedDevice :=
  let latest := fetchLatest up d.deviceId
  let alarms := fetchAlarm up d.deviceId
  let sublistWithData :=
    match d.sublist with
    | some sl => if sl.length > 0 then sl.map (enrichSub up) else []
    | none => []
  match jsMember latest "data" with
  | .ok dt =>
    { base := d
      latestData := jsOr dt (.vObj [])
      alarms := jsOr alarms (.vArr [])
      sublist := sublistWithData
      error := none }
  | .error msg =>
    { base := d, latestData := .vObj [], alarms := .vArr [], sublist := [],
      error := some msg }

/-- The upstream calls made while enriching one sub-device. -/
def subCalls (sd : SubDevice) : List ApiCall :=
  [.latestData sd.deviceId, .alarms sd.deviceId]

/-- The upstream calls made while enriching one top-level device (its own
two fetches, then one pair per sub-device). -/
def deviceCalls (d : Device) : List ApiCall :=
  [.latestData d.deviceId, .alarms d.deviceId] ++
    (match d.sublist with
     | some sl => if sl.length > 0 then sl.flatMap subCalls else []
     | none => [])

/-- The `/api/dashboard` handler (`server.js` lines 205-275): the result
sent to the browser together with the list of upstream calls issued. -/
def buildDashboard (up : Upstream) :
    Except ErrEnvelope (List EnrichedDevice) × List ApiCall :=
  match up.deviceList with
  | .error e => (.error { error := "Failed to fetch dashboard data", details := e },
      [.deviceList])
  | .ok devs => (.ok (devs.map (enrichDevice up)),
      .deviceList :: devs.flatMap deviceCalls)

/-! ## View model builder (`public/app.js`)

`organizeDevices`, `updateBatteries`'s combined-level computation and
`updateGauge`'s color thresholds.  Numeric readings are modelled as
rationals (`batteryLevel` values and their mean); a missing field is
`none` (JS `undefined`). -/

/-- The latest-data readings the client reads off a sub-device record. -/
structure CLatest where
  batteryLevel : Option ℚ
  presentVolts : Option ℚ

/-- A sub-device record as the client sees it in the dashboard payload's
`sublist`. -/
structure CDevice where
  name : String
  category : String
  latestData : Option CLatest

/-- A top-level device record as the client sees it. -/
structure CMain where
  sublist : Option (List CDevice)

/-- One location view (`house` / `shed`). -/
structure LocationView where
  controller : Option CDevice
  batteries : List CDevice
  locName : String

/-- The two location views `organizeDevices` builds. -/
structure Organized where
  house : LocationView
  shed : LocationView

/-- `organizeDevices(data)` (`app.js` lines 67-89): `null` for an empty
list, otherwise classify the first device's `sublist` by exact name match
for the two controllers and by `category === 'Battery'` for the house
batteries; the shed view gets no batteries. -/
def organizeDevices (data : List CMain) : Option Organized :=
  match data with
  | [] => none
  | mainDevice :: _ =>
    let sublist := mainDevice.sublist.getD []
    some
      { house :=
          { controller := sublist.find? (fun d => d.name = "Controller House")
            batteries := sublist.filter (fun d => d.category = "Battery")
            locName := "House" }
        shed :=
          { controller := sublist.find? (fun d => d.name = "Controller Shed")
            batteries := []
            locName := "Shed" } }

/-- The fold of `updateBatteries`'s `forEach` (`app.js` lines 157-166):
accumulate `totalLevel` and `count` over batteries whose
`(battery.latestData || {}).batteryLevel !== undefined`. -/
def batteryFold (acc : ℚ × Nat) (b : CDevice) : ℚ × Nat :=
  match (match b.latestData with
         | none => none
         | some d => d.batteryLevel) with
  | some lvl => (acc.1 + lvl, acc.2 + 1)
  | none => acc

/-- The combined battery level (`app.js` lines 157-168):
`count > 0 ? totalLevel / count : 0`. -/
def combinedLevel (batteries : List CDevice) : ℚ :=
  let t := batteries.foldl batteryFold (0, 0)
  if t.2 > 0 then t.1 / t.2 else 0

/-- The defined battery levels of a battery list, in order: the
`batteryLevel` readings the `forEach` accumulates. -/
def definedLevels (batteries : List CDevice) : List ℚ :=
  batteries.filterMap (fun b =>
    match b.latestData with
    | none => none
    | some d => d.batteryLevel)

/-- `updateGauge`'s color choice (`app.js` lines 48-57). -/
def gaugeColor (percentage : ℚ) : String :=
  if percentage ≥ 50 then "#4caf50"
  else if percentage ≥ 25 then "#ffc107"
  else "#f44336"

/-! ## A right-to-left parser for `getCacheKey` output

`getCacheKey` output is `endpoint ++ ":" ++ stringifyChars params`, and the
endpoint may itself contain `:` and JSON text, so the key cannot be split
from the left.  Read from the *right*, however, the serialized object is
uniquely parseable with one character of lookahead, which yields both the
injectivity of the serializer and the unambiguity of the composite key.
The parsers below consume the *reversed* character list, returning what
they parsed plus the unconsumed rest. -/

/-- Reversed-string-content reader: consumes `(escape s).reverse` followed
by the string's opening quote, accumulating the contents front-first.  In
reversed escaped text, a quote followed by a backslash is an escaped
quote, a backslash must be followed by a second backslash (an escaped
backslash), and a bare quote closes the literal. -/
def rContent (acc : List Char) : List Char → Option (List Char × List Char)
  | [] => none
  | c :: rest =>
    if c = '"' then
      match rest with
      | [] => some (acc, [])
      | r :: rest2 => if r = '\\' then rContent ('"' :: acc) rest2 else some (acc, rest)
    else if c = '\\' then
      match rest with
      | [] => none
      | r :: rest2 => if r = '\\' then rContent ('\\' :: acc) rest2 else none
    else rContent (c :: acc) rest

/-- Reversed string-literal reader: expects the closing quote, then the
reversed contents. -/
def rStr : List Char → Option (List Char × List Char)
  | [] => none
  | c :: rest => if c = '"' then rContent [] rest else none

/-- Reversed decimal-digit reader: consumes least-significant-first digits,
reconstructing the value (`pow` is the place value of the next digit). -/
def rDigits : List Char → Nat → Nat → Nat × List Char
  | [], acc, _ => (acc, [])
  | c :: rest, acc, pow =>
    if 48 ≤ c.toNat ∧ c.toNat ≤ 57 then
      rDigits rest (acc + (c.toNat - 48) * pow) (pow * 10)
    else (acc, c :: rest)

/-- Reversed integer reader: at least one digit, then an optional sign. -/
def rNum (input : List Char) : Option (Int × List Char) :=
  match input with
  | [] => none
  | c :: _ =>
    if 48 ≤ c.toNat ∧ c.toNat ≤ 57 then
      match rDigits input 0 1 with
      | (v, rest2) =>
        match rest2 with
        | r :: rest3 => if r = '-' then some (-(v : Int), rest3) else some ((v : Int), rest2)
        | [] => some ((v : Int), [])
    else none

/-- Reversed JSON-value reader: a quote starts (the end of) a string
literal, a digit starts (the end of) a number. -/
def rVal (input : List Char) : Option (PVal × List Char) :=
  match input with
  | [] => none
  | c :: _ =>
    if c = '"' then (rStr input).map (fun p => (PVal.pStr ⟨p.1⟩, p.2))
    else (rNum input).map (fun p => (PVal.pNum p.1, p.2))

/-- Reversed member reader: value, `:`, key. -/
def rPair (input : List Char) : Option ((String × PVal) × List Char) :=
  match rVal input with
  | none => none
  | some (v, rest) =>
    match rest with
    | c :: rest2 =>
      if c = ':' then
        match rStr rest2 with
        | some (k, rest3) => some ((⟨k⟩, v), rest3)
        | none => none
      else none
    | [] => none

/-- Reversed member-list reader (fuelled; one unit of fuel per member):
members separated by `,`, terminated by the object's opening brace.
Prepending each parsed member restores source order. -/
def rPairs : Nat → List (String × PVal) → List Char →
    Option (List (String × PVal) × List Char)
  | 0, _, _ => none
  | fuel + 1, acc, input =>
    match rPair input with
    | none => none
    | some (p, rest) =>
      match rest with
      | c :: rest2 =>
        if c = ',' then rPairs fuel (p :: acc) rest2
        else if c = lbrace then some (p :: acc, rest2)
        else none
      | [] => none

/-- Reversed object reader: the closing brace, then either an immediate
opening brace (empty object) or the members. -/
def rObj (input : List Char) : Option (List (String × PVal) × List Char) :=
  match input with
  | [] => none
  | c :: rest =>
    if c = rbrace then
      match rest with
      | [] => none
      | c2 :: rest2 =>
        if c2 = lbrace then some ([], rest2)
        else rPairs rest.length [] rest
    else none

/-! ## Concrete fixtures

Concrete instantiations used by counterexamples and witnesses below. -/

/-- A concrete stand-in for the abstract HMAC primitive. -/
def exHmac : String → String → String := fun k m => k ++ ">" ++ m

/-- Concrete credentials. -/
def exEnv : Env := { accessKey := "AK", secretKey := "SK" }

/-- A network oracle whose every response carries a battery reading. -/
def exNet : NetCall → Except String JsVal :=
  fun _ => .ok (.vObj [("data", .vObj [("batteryLevel", .vNum 72)])])

/-- A cache holding a fresh entry for `/device/list` whose payload is the
JSON value `null` (falsy). -/
def cacheWithNull : Cache :=
  [(getCacheKey "/device/list" [], { data := .vNull, timestamp := 1000 })]

/-- An upstream whose root device-list call fails. -/
def exUpFail : Upstream :=
  { deviceList := .error "getaddrinfo ENOTFOUND openapi.renogy.com"
    latest := fun _ => .ok (.vObj [("data", .vObj [])])
    alarm := fun _ => .ok (.vArr []) }

/-- Sub-device `A`: enrichment succeeds. -/
def subA : SubDevice := { deviceId := "A", name := "Controller House", category := "Controller" }

/-- Sub-device `B`: enrichment fails. -/
def subB : SubDevice := { deviceId := "B", name := "Battery 1", category := "Battery" }

/-- The hub device owning `A` and `B`. -/
def hubDev : Device :=
  { deviceId := "hub", name := "Hub", category := "Hub", sublist := some [subA, subB] }

/-- An upstream where both of sub-device `B`'s enrichment calls fail and
every other call succeeds. -/
def exUpC1 : Upstream :=
  { deviceList := .ok [hubDev]
    latest := fun id =>
      if id = "B" then .error "Request failed with status code 500"
      else .ok (.vObj [("data", .vObj [("batteryLevel", .vNum 72)])])
    alarm := fun id =>
      if id = "B" then .error "Request failed with status code 500"
      else .ok (.vArr []) }

/-- The house controller sub-device, client side. -/
def ctlHouse : CDevice :=
  { name := "Controller House", category := "Controller", latestData := some ⟨none, none⟩ }

/-- The shed controller sub-device, client side. -/
def ctlShed : CDevice :=
  { name := "Controller Shed", category := "Controller", latestData := some ⟨none, none⟩ }

/-- A battery reporting level 80. -/
def batt80 : CDevice :=
  { name := "Battery 1", category := "Battery", latestData := some ⟨some 80, some 13⟩ }

/-- A battery reporting level 40. -/
def batt40 : CDevice :=
  { name := "Battery 2", category := "Battery", latestData := some ⟨some 40, some 13⟩ }

/-- The client-side hub record with the four sub-devices. -/
def exMainDevice : CMain := { sublist := some [ctlHouse, ctlShed, batt80, batt40] }

/-! # Theorems -/

/-! ## Cache lemmas -/

/-- `Map.set` makes the new entry the one `Map.get` finds. -/
theorem cacheLookup_setCache (c : Cache) (k : String) (v : JsVal) (t : Nat) :
    cacheLookup (setCache c k v t) k = some { data := v, timestamp := t } := by
  simp [cacheLookup, setCache, List.find?]

/-- `Map.delete` removes every binding of the key. -/
theorem cacheLookup_cacheDelete (c : Cache) (k : String) :
    cacheLookup (cacheDelete c k) k = none := by
  induction c with
  | nil => rfl
  | cons e t ih =>
    by_cases he : e.1 = k
    · simpa [cacheDelete, cacheLookup, he] using ih
    · simpa [cacheDelete, cacheLookup, List.find?, he] using ih


/-- C4.  A `set(key, value)` followed by `get(key)` while
`now - entry.timestamp ≤ CACHE_TTL` returns the identical stored value
(and leaves the cache unchanged); a `get(key)` once `now - entry.timestamp`
exceeds the TTL returns absent and removes the entry, so a subsequent
`get(key)` at any time also returns absent without touching the cache
again. -/
theorem cache_set_get_ttl (c : Cache) (k : String) (v : JsVal) (t1 t2 t3 : Nat) :
    (t2 - t1 ≤ CACHE_TTL →
      getFromCache (setCache c k v t1) k t2 = (some v, setCache c k v t1)) ∧
    (t2 - t1 > CACHE_TTL →
      (getFromCache (setCache c k v t1) k t2).1 = none ∧
      cacheLookup (getFromCache (setCache c k v t1) k t2).2 k = none ∧
      getFromCache (getFromCache (setCache c k v t1) k t2).2 k t3 =
        (none, (getFromCache (setCache c k v t1) k t2).2)) := by
  constructor
  · intro hfresh
    simp only [getFromCache, cacheLookup_setCache]
    rw [if_neg (by omega)]
  · intro hstale
    have hdel : getFromCache (setCache c k v t1) k t2 =
        (none, cacheDelete (setCache c k v t1) k) := by
      simp only [getFromCache, cacheLookup_setCache]
      rw [if_pos (by omega)]
    refine ⟨by rw [hdel], ?_, ?_⟩
    · rw [hdel]
      exact cacheLookup_cacheDelete _ k
    · rw [hdel]
      simp only [getFromCache, cacheLookup_cacheDelete]

/-- Witness for `cache_set_get_ttl` at a concrete key, value and clock. -/
theorem cache_set_get_ttl_witness :
    (getFromCache (setCache [] "k" (.vNum 7) 1000) "k" 61000 =
      (some (.vNum 7), setCache [] "k" (.vNum 7) 1000)) ∧
    ((getFromCache (setCache [] "k" (.vNum 7) 1000) "k" 62001).1 = none ∧
      cacheLookup (getFromCache (setCache [] "k" (.vNum 7) 1000) "k" 62001).2 "k" = none ∧
      getFromCache (getFromCache (setCache [] "k" (.vNum 7) 1000) "k" 62001).2 "k" 62002 =
        (none, (getFromCache (setCache [] "k" (.vNum 7) 1000) "k" 62001).2)) :=
  ⟨(cache_set_get_ttl [] "k" (.vNum 7) 1000 61000 0).1 (by norm_num [CACHE_TTL]),
   (cache_set_get_ttl [] "k" (.vNum 7) 1000 62001 62002).2 (by norm_num [CACHE_TTL])⟩

/-! ## Upstream client theorems -/

/-- C3 (amended).  If the cache holds a non-expired entry *with a truthy
payload* under the computed key, `renogyRequest` returns that payload with
no network call (and hence nothing is signed or sent).  Otherwise -- in
each of the three miss modes: no entry under the key, a non-expired entry
whose payload is falsy (e.g. `null`), or an expired entry (which the
lookup deletes first) -- a fresh timestamp (`now`) is taken, a signature
is computed over it, the authenticated GET goes out with the `Access-Key`,
`Timestamp` and `Signature` headers, and on success the response body is
stored under the same key and returned. -/
theorem renogyRequest_cache_contract (hmac : String → String → String) (env : Env)
    (net : NetCall → Except String JsVal) (c : Cache) (now : Nat)
    (endpoint : String) (params : List (String × PVal)) :
    (∀ e : CacheEntry,
      cacheLookup c (getCacheKey endpoint params) = some e →
      now - e.timestamp ≤ CACHE_TTL → jsTruthy e.data = true →
      renogyRequest hmac env net c now endpoint params =
        { result := .ok e.data, cache := c, netCalls := [] }) ∧
    (∀ d : JsVal,
      cacheLookup c (getCacheKey endpoint params) = none →
      net (missCall hmac env now endpoint params) = .ok d →
      renogyRequest hmac env net c now endpoint params =
        { result := .ok d
          cache := setCache c (getCacheKey endpoint params) d now
          netCalls := [missCall hmac env now endpoint params] }) ∧
    (∀ (e : CacheEntry) (d : JsVal),
      cacheLookup c (getCacheKey endpoint params) = some e →
      now - e.timestamp ≤ CACHE_TTL → jsTruthy e.data = false →
      net (missCall hmac env now endpoint params) = .ok d →
      renogyRequest hmac env net c now endpoint params =
        { result := .ok d
          cache := setCache c (getCacheKey endpoint params) d now
          netCalls := [missCall hmac env now endpoint params] }) ∧
    (∀ (e : CacheEntry) (d : JsVal),
      cacheLookup c (getCacheKey endpoint params) = some e →
      now - e.timestamp > CACHE_TTL →
      net (missCall hmac env now endpoint params) = .ok d →
      renogyRequest hmac env net c now endpoint params =
        { result := .ok d
          cache := setCache (cacheDelete c (getCacheKey endpoint params))
            (getCacheKey endpoint params) d now
          netCalls := [missCall hmac env now endpoint params] }) := by
  refine ⟨?_, ?_, ?_, ?_⟩
  · intro e he hfresh htruthy
    have hnot : ¬ (now - e.timestamp > CACHE_TTL) := by omega
    have hlook : getFromCache c (getCacheKey endpoint params) now = (some e.data, c) := by
      rw [getFromCache, he]
      dsimp only
      rw [if_neg hnot]
    simp only [renogyRequest, hlook, jsOfOption, Option.getD_some, htruthy, if_true]
  · intro d hnone hnet
    have hlook : getFromCache c (getCacheKey endpoint params) now = (none, c) := by
      rw [getFromCache, hnone]
    simp only [renogyRequest, hlook, jsOfOption, Option.getD_none, jsTruthy,
      Bool.false_eq_true, if_false, hnet]
  · intro e d he hfresh hfalsy hnet
    have hnot : ¬ (now - e.timestamp > CACHE_TTL) := by omega
    have hlook : getFromCache c (getCacheKey endpoint params) now = (some e.data, c) := by
      rw [getFromCache, he]
      dsimp only
      rw [if_neg hnot]
    simp only [renogyRequest, hlook, jsOfOption, Option.getD_some, hfalsy,
      Bool.false_eq_true, if_false, hnet]
  · intro e d he hstale hnet
    have hlook : getFromCache c (getCacheKey endpoint params) now =
        (none, cacheDelete c (getCacheKey endpoint params)) := by
      rw [getFromCache, he]
      dsimp only
      rw [if_pos hstale]
    simp only [renogyRequest, hlook, jsOfOption, Option.getD_none, jsTruthy,
      Bool.false_eq_true, if_false, hnet]

/-- Witness for `renogyRequest_cache_contract`: a hit on a truthy cached
payload, and one miss of each mode -- empty cache, fresh `null` payload,
and expired entry. -/
theorem renogyRequest_cache_contract_witness :
    (renogyRequest exHmac exEnv exNet
        [(getCacheKey "/device/list" [], { data := .vNum 5, timestamp := 1000 })]
        1500 "/device/list" [] =
      { result := .ok (.vNum 5)
        cache := [(getCacheKey "/device/list" [], { data := .vNum 5, timestamp := 1000 })]
        netCalls := [] }) ∧
    (renogyRequest exHmac exEnv exNet [] 1500 "/device/list" [] =
      { result := .ok (.vObj [("data", .vObj [("batteryLevel", .vNum 72)])])
        cache := setCache [] (getCacheKey "/device/list" [])
          (.vObj [("data", .vObj [("batteryLevel", .vNum 72)])]) 1500
        netCalls := [missCall exHmac exEnv 1500 "/device/list" []] }) ∧
    (renogyRequest exHmac exEnv exNet cacheWithNull 1000 "/device/list" [] =
      { result := .ok (.vObj [("data", .vObj [("batteryLevel", .vNum 72)])])
        cache := setCache cacheWithNull (getCacheKey "/device/list" [])
          (.vObj [("data", .vObj [("batteryLevel", .vNum 72)])]) 1000
        netCalls := [missCall exHmac exEnv 1000 "/device/list" []] }) ∧
    (renogyRequest exHmac exEnv exNet
        [(getCacheKey "/device/list" [], { data := .vNum 5, timestamp := 1000 })]
        100000 "/device/list" [] =
      { result := .ok (.vObj [("data", .vObj [("batteryLevel", .vNum 72)])])
        cache := setCache
          (cacheDelete
            [(getCacheKey "/device/list" [], { data := .vNum 5, timestamp := 1000 })]
            (getCacheKey "/device/list" []))
          (getCacheKey "/device/list" [])
          (.vObj [("data", .vObj [("batteryLevel", .vNum 72)])]) 100000
        netCalls := [missCall exHmac exEnv 100000 "/device/list" []] }) :=
  ⟨(renogyRequest_cache_contract exHmac exEnv exNet
      [(getCacheKey "/device/list" [], { data := .vNum 5, timestamp := 1000 })]
      1500 "/device/list" []).1 { data := .vNum 5, timestamp := 1000 }
      (by simp [cacheLookup, List.find?]) (by norm_num [CACHE_TTL]) (by rfl),
   (renogyRequest_cache_contract exHmac exEnv exNet [] 1500 "/device/list" []).2.1
      (.vObj [("data", .vObj [("batteryLevel", .vNum 72)])]) (by rfl) (by rfl),
   (renogyRequest_cache_contract exHmac exEnv exNet cacheWithNull
      1000 "/device/list" []).2.2.1 { data := .vNull, timestamp := 1000 }
      (.vObj [("data", .vObj [("batteryLevel", .vNum 72)])])
      (by rfl) (by norm_num [CACHE_TTL]) (by rfl) (by rfl),
   (renogyRequest_cache_contract exHmac exEnv exNet
      [(getCacheKey "/device/list" [], { data := .vNum 5, timestamp := 1000 })]
      100000 "/device/list" []).2.2.2 { data := .vNum 5, timestamp := 1000 }
      (.vObj [("data", .vObj [("batteryLevel", .vNum 72)])])
      (by simp [cacheLookup, List.find?]) (by norm_num [CACHE_TTL]) (by rfl)⟩

/-- C3 (counterexample).  The cache holds a non-expired entry for the
computed key (`/device/list`, no parameters) whose payload is the JSON
value `null`, yet `renogyRequest` performs a network call -- the claim's
"cached payload is returned with no signing and no network call" fails on
falsy payloads. -/
theorem renogyRequest_nonexpired_entry_still_calls :
    cacheLookup cacheWithNull (getCacheKey "/device/list" []) =
      some { data := .vNull, timestamp := 1000 } ∧
    1000 - 1000 ≤ CACHE_TTL ∧
    (renogyRequest exHmac exEnv exNet cacheWithNull 1000 "/device/list" []).netCalls =
      [missCall exHmac exEnv 1000 "/device/list" []] := by
  refine ⟨by rfl, by norm_num [CACHE_TTL], ?_⟩
  rfl

/-- C10.  A non-expired cache entry whose stored payload is falsy (here
any `e` with `jsTruthy e.data = false`, e.g. `null`) is treated as a miss:
`renogyRequest` issues the fresh signed network call even though the entry
is within TTL. -/
theorem renogyRequest_falsy_payload_is_miss (hmac : String → String → String)
    (env : Env) (net : NetCall → Except String JsVal) (c : Cache) (now : Nat)
    (endpoint : String) (params : List (String × PVal)) (e : CacheEntry) :
    cacheLookup c (getCacheKey endpoint params) = some e →
    now - e.timestamp ≤ CACHE_TTL →
    jsTruthy e.data = false →
    (renogyRequest hmac env net c now endpoint params).netCalls =
      [missCall hmac env now endpoint params] := by
  intro he hfresh hfalsy
  have hnot : ¬ (now - e.timestamp > CACHE_TTL) := by omega
  have hlook : getFromCache c (getCacheKey endpoint params) now = (some e.data, c) := by
    rw [getFromCache, he]
    dsimp only
    rw [if_neg hnot]
  simp only [renogyRequest, hlook, jsOfOption, Option.getD_some, hfalsy,
    Bool.false_eq_true, if_false]
  cases hnet : net (missCall hmac env now endpoint params) <;> simp [hnet]

/-- Witness for `renogyRequest_falsy_payload_is_miss` at the concrete
cache holding a fresh `null` payload. -/
theorem renogyRequest_falsy_payload_is_miss_witness :
    (renogyRequest exHmac exEnv exNet cacheWithNull 1234 "/device/list" []).netCalls =
      [missCall exHmac exEnv 1234 "/device/list" []] :=
  renogyRequest_falsy_payload_is_miss exHmac exEnv exNet cacheWithNull 1234
    "/device/list" [] { data := .vNull, timestamp := 1000 }
    (by rfl) (by norm_num [CACHE_TTL]) (by rfl)

/-! ## Aggregator theorems -/

/-- C2.  When the root `/device/list` fetch fails, the dashboard handler
answers with the `{ error, details }` envelope, and the only upstream call
made is the device-list call itself: no per-device latest-data or alarm
fetch is issued. -/
theorem dashboard_fatal_on_list_failure (up : Upstream) (e : String) :
    up.deviceList = .error e →
    buildDashboard up =
      (.error { error := "Failed to fetch dashboard data", details := e },
        [ApiCall.deviceList]) ∧
    (∀ id, ApiCall.latestData id ∉ (buildDashboard up).2 ∧
      ApiCall.alarms id ∉ (buildDashboard up).2) := by
  intro h
  have hb : buildDashboard up =
      (.error { error := "Failed to fetch dashboard data", details := e },
        [ApiCall.deviceList]) := by
    rw [buildDashboard, h]
  refine ⟨hb, fun id => ?_⟩
  rw [hb]
  simp

/-- Witness for `dashboard_fatal_on_list_failure` at a concrete failing
upstream. -/
theorem dashboard_fatal_on_list_failure_witness :
    buildDashboard exUpFail =
      (.error { error := "Failed to fetch dashboard data"
                details := "getaddrinfo ENOTFOUND openapi.renogy.com" },
        [ApiCall.deviceList]) ∧
    (∀ id, ApiCall.latestData id ∉ (buildDashboard exUpFail).2 ∧
      ApiCall.alarms id ∉ (buildDashboard exUpFail).2) :=
  dashboard_fatal_on_list_failure exUpFail
    "getaddrinfo ENOTFOUND openapi.renogy.com" (by rfl)

/-- C1 (counterexample).  In the dashboard built over `exUpC1` -- where
both enrichment calls of sub-device `B` fail and every call of its sibling
`A` succeeds -- `B` is kept with empty `latestData` and empty `alarms`,
but its `error` field is `none`: the `.catch(() => ...)` fallbacks on the
two fetches swallow the failures before the `catch (err)` block that would
attach the error marker can run, so the claimed error marker is absent. -/
theorem dashboard_failed_subdevice_has_no_error_marker :
    (buildDashboard exUpC1).1 = .ok
      [{ base := hubDev
         latestData := .vObj [("batteryLevel", .vNum 72)]
         alarms := .vArr []
         sublist :=
           [{ base := subA
              latestData := .vObj [("batteryLevel", .vNum 72)]
              alarms := .vArr []
              error := none },
            { base := subB
              latestData := .vObj []
              alarms := .vArr []
              error := none }]
         error := none }] ∧
    (enrichSub exUpC1 subB).error = none := by
  constructor
  · rfl
  · rfl

/-- C1 (amended).  With the root list fetch succeeding, a sub-device both
of whose enrichment calls fail is still present in the dashboard -- at its
position in its parent's (fully preserved) `sublist` -- carrying an empty
`latestData` mapping and an empty `alarms` list, but *no* error marker;
and every sibling whose calls succeed is fully enriched.  (The `pd`
hypothesis states that the parent device's own latest-data payload is an
ordinary object, so its member access does not throw.) -/
theorem dashboard_subdevice_fault_isolation (up : Upstream)
    (devs : List Device) (d : Device) (sl : List SubDevice) (sub : SubDevice)
    (e1 e2 : String)
    (hlist : up.deviceList = .ok devs) (_hd : d ∈ devs)
    (hsl : d.sublist = some sl) (hsub : sub ∈ sl)
    (hlat : up.latest sub.deviceId = .error e1)
    (halm : up.alarm sub.deviceId = .error e2) :
    (buildDashboard up).1 = .ok (devs.map (enrichDevice up)) ∧
    (∀ pd, jsMember (fetchLatest up d.deviceId) "data" = .ok pd →
      (enrichDevice up d).sublist = sl.map (enrichSub up)) ∧
    enrichSub up sub =
      { base := sub, latestData := .vObj [], alarms := .vArr [], error := none } ∧
    (∀ sib r a d0, sib ∈ sl →
      up.latest sib.deviceId = .ok r → up.alarm sib.deviceId = .ok a →
      jsMember r "data" = .ok d0 →
      enrichSub up sib =
        { base := sib, latestData := jsOr d0 (.vObj [])
          alarms := jsOr a (.vArr []), error := none }) := by
  refine ⟨?_, ?_, ?_, ?_⟩
  · rw [buildDashboard, hlist]
  · intro pd hpd
    rw [enrichDevice]
    rw [hpd]
    simp only [hsl]
    cases sl with
    | nil => simp
    | cons s t => simp
  · rw [enrichSub]
    rw [show fetchLatest up sub.deviceId = .vObj [("data", .vObj [])] from by
      rw [fetchLatest, hlat]]
    rw [show fetchAlarm up sub.deviceId = .vArr [] from by
      rw [fetchAlarm, halm]]
    rfl
  · intro sib r a d0 _ hr ha hd0
    rw [enrichSub]
    rw [show fetchLatest up sib.deviceId = r from by rw [fetchLatest, hr]]
    rw [show fetchAlarm up sib.deviceId = a from by rw [fetchAlarm, ha]]
    rw [hd0]

/-- Witness for `dashboard_subdevice_fault_isolation` at the concrete
`exUpC1` scenario (device `hub`, failing sub-device `B`, sibling `A`). -/
theorem dashboard_subdevice_fault_isolation_witness :
    (buildDashboard exUpC1).1 = .ok ([hubDev].map (enrichDevice exUpC1)) ∧
    (∀ pd, jsMember (fetchLatest exUpC1 hubDev.deviceId) "data" = .ok pd →
      (enrichDevice exUpC1 hubDev).sublist = [subA, subB].map (enrichSub exUpC1)) ∧
    enrichSub exUpC1 subB =
      { base := subB, latestData := .vObj [], alarms := .vArr [], error := none } ∧
    (∀ sib r a d0, sib ∈ [subA, subB] →
      exUpC1.latest sib.deviceId = .ok r → exUpC1.alarm sib.deviceId = .ok a →
      jsMember r "data" = .ok d0 →
      enrichSub exUpC1 sib =
        { base := sib, latestData := jsOr d0 (.vObj [])
          alarms := jsOr a (.vArr []), error := none }) :=
  dashboard_subdevice_fault_isolation exUpC1 [hubDev] hubDev [subA, subB] subB
    "Request failed with status code 500" "Request failed with status code 500"
    (by rfl) (by simp) (by rfl) (by simp)
    (by rfl) (by rfl)

/-! ## View model theorems -/

/-- The `forEach` accumulator equals the running sum and count of the
defined battery levels. -/
theorem batteryFold_spec (bs : List CDevice) (a : ℚ) (n : Nat) :
    bs.foldl batteryFold (a, n) =
      (a + (definedLevels bs).sum, n + (definedLevels bs).length) := by
  induction bs generalizing a n with
  | nil => simp [definedLevels]
  | cons b t ih =>
    cases hb : b.latestData with
    | none =>
      simp only [List.foldl_cons, batteryFold, hb, definedLevels, List.filterMap_cons]
      simpa [definedLevels] using ih a n
    | some ld =>
      cases hl : ld.batteryLevel with
      | none =>
        simp only [List.foldl_cons, batteryFold, hb, hl, definedLevels,
          List.filterMap_cons]
        simpa [definedLevels] using ih a n
      | some lvl =>
        simp only [List.foldl_cons, batteryFold, hb, hl, definedLevels,
          List.filterMap_cons]
        rw [ih (a + lvl) (n + 1)]
        simp [definedLevels, List.sum_cons]
        constructor
        · ring
        · omega

/-- C6.  The combined battery percentage is the arithmetic mean of
`batteryLevel` over exactly those batteries whose `latestData` carries a
defined `batteryLevel` (and `0` when no battery reports a level); in
particular, levels 80 and 40 combine to 60. -/
theorem combined_battery_mean (bs : List CDevice) :
    (definedLevels bs ≠ [] →
      combinedLevel bs = (definedLevels bs).sum / (definedLevels bs).length) ∧
    (definedLevels bs = [] → combinedLevel bs = 0) ∧
    combinedLevel [batt80, batt40] = 60 := by
  have hdl : definedLevels [batt80, batt40] = [(80 : ℚ), 40] := by
    simp [definedLevels, batt80, batt40]
  refine ⟨?_, ?_, ?_⟩
  · intro hne
    rw [combinedLevel, batteryFold_spec bs 0 0]
    simp only [zero_add, Nat.zero_add]
    rw [if_pos (by simpa [List.length_pos] using hne)]
  · intro hnil
    rw [combinedLevel, batteryFold_spec bs 0 0, hnil]
    simp
  · rw [combinedLevel, batteryFold_spec [batt80, batt40] 0 0, hdl]
    norm_num

/-- Witness for `combined_battery_mean`: the 80/40 pair has mean 60, and
an empty battery list combines to 0. -/
theorem combined_battery_mean_witness :
    combinedLevel [batt80, batt40] =
      (definedLevels [batt80, batt40]).sum / (definedLevels [batt80, batt40]).length ∧
    combinedLevel [] = 0 :=
  ⟨(combined_battery_mean [batt80, batt40]).1
      (by simp [definedLevels, batt80, batt40]),
   (combined_battery_mean []).2.1 (by rfl)⟩

/-- C7.  The gauge color is green (`#4caf50`) for percentages at least 50,
yellow (`#ffc107`) for percentages in `[25, 50)`, red (`#f44336`) below
25; in particular 50 is green, 49 and 25 yellow, 24 and 0 red. -/
theorem gauge_color_thresholds (p : ℚ) :
    (50 ≤ p → gaugeColor p = "#4caf50") ∧
    (25 ≤ p → p < 50 → gaugeColor p = "#ffc107") ∧
    (p < 25 → gaugeColor p = "#f44336") ∧
    gaugeColor 50 = "#4caf50" ∧ gaugeColor 49 = "#ffc107" ∧
    gaugeColor 25 = "#ffc107" ∧ gaugeColor 24 = "#f44336" ∧
    gaugeColor 0 = "#f44336" := by
  refine ⟨?_, ?_, ?_, by norm_num [gaugeColor], by norm_num [gaugeColor],
    by norm_num [gaugeColor], by norm_num [gaugeColor], by norm_num [gaugeColor]⟩
  · intro h
    rw [gaugeColor, if_pos (by linarith)]
  · intro h1 h2
    rw [gaugeColor, if_neg (by linarith), if_pos (by linarith)]
  · intro h
    rw [gaugeColor, if_neg (by linarith), if_neg (by linarith)]

/-- Witness for `gauge_color_thresholds` at concrete percentages in each
band. -/
theorem gauge_color_thresholds_witness :
    gaugeColor 72 = "#4caf50" ∧ gaugeColor 30 = "#ffc107" ∧
    gaugeColor 10 = "#f44336" :=
  ⟨(gauge_color_thresholds 72).1 (by norm_num),
   (gauge_color_thresholds 30).2.1 (by norm_num) (by norm_num),
   (gauge_color_thresholds 10).2.2.1 (by norm_num)⟩

/-- `find?` returns the element when exactly one element satisfies the
predicate. -/
theorem find_of_unique {α : Type} (p : α → Bool) (l : List α) (a : α)
    (ha : a ∈ l) (hpa : p a = true)
    (uniq : ∀ x ∈ l, p x = true → x = a) : l.find? p = some a := by
  induction l with
  | nil => cases ha
  | cons b t ih =>
    cases hb : p b with
    | true =>
      rw [List.find?_cons_of_pos _ hb]
      have : b = a := uniq b (List.mem_cons_self b t) hb
      rw [this]
    | false =>
      rw [List.find?_cons_of_neg _ (by simp [hb])]
      have hat : a ∈ t := by
        rcases List.mem_cons.mp ha with h | h
        · subst h
          rw [hpa] at hb
          cases hb
        · exact h
      exact ih hat (fun x hx hpx => uniq x (List.mem_cons_of_mem b hx) hpx)

/-- C8.  When the first device's `sublist` contains exactly one sub-device
named `Controller House` and exactly one named `Controller Shed`, the view
model gives the house view that controller together with *all*
`category = "Battery"` children, and the shed view the shed controller
with an empty battery list. -/
theorem organize_devices_classification (mainDevice : CMain) (rest : List CMain)
    (sl : List CDevice) (hc sc : CDevice)
    (hsl : mainDevice.sublist = some sl)
    (hhc : hc ∈ sl) (hhcn : hc.name = "Controller House")
    (hhuniq : ∀ d ∈ sl, d.name = "Controller House" → d = hc)
    (hsc : sc ∈ sl) (hscn : sc.name = "Controller Shed")
    (hsuniq : ∀ d ∈ sl, d.name = "Controller Shed" → d = sc) :
    organizeDevices (mainDevice :: rest) = some
      { house :=
          { controller := some hc
            batteries := sl.filter (fun d => d.category = "Battery")
            locName := "House" }
        shed := { controller := some sc, batteries := [], locName := "Shed" } } := by
  rw [organizeDevices]
  rw [hsl]
  have h1 : sl.find? (fun d => d.name = "Controller House") = some hc :=
    find_of_unique _ sl hc hhc (by simp [hhcn])
      (fun x hx hpx => hhuniq x hx (by simpa using hpx))
  have h2 : sl.find? (fun d => d.name = "Controller Shed") = some sc :=
    find_of_unique _ sl sc hsc (by simp [hscn])
      (fun x hx hpx => hsuniq x hx (by simpa using hpx))
  simp only [Option.getD_some, h1, h2]

/-- Witness for `organize_devices_classification` at the concrete hub with
both controllers and two batteries. -/
theorem organize_devices_classification_witness :
    organizeDevices [exMainDevice] = some
      { house :=
          { controller := some ctlHouse
            batteries := [ctlHouse, ctlShed, batt80, batt40].filter
              (fun d => d.category = "Battery")
            locName := "House" }
        shed := { controller := some ctlShed, batteries := [], locName := "Shed" } } :=
  organize_devices_classification exMainDevice [] [ctlHouse, ctlShed, batt80, batt40]
    ctlHouse ctlShed (by rfl) (by simp) (by rfl)
    (by intro d hd hn
        fin_cases hd <;> first
          | rfl
          | (exfalso; simp [ctlShed, batt80, batt40] at hn))
    (by simp) (by rfl)
    (by intro d hd hn
        fin_cases hd <;> first
          | rfl
          | (exfalso; simp [ctlHouse, batt80, batt40] at hn))

/-! ## Signer theorem -/

/-- C9.  `calcSign` feeds the HMAC-SHA256/base64 primitive (abstract here,
since it lives in Node's `crypto` library) exactly the string
`` `${timestamp}.${path}.${paramString}` `` with the shared secret as key,
and it is deterministic: two calls on equal inputs yield the same
signature string. -/
theorem calcSign_signs_exact_string (hmacSha256Base64 : String → String → String)
    (url paramStr : String) (ts : Nat) (secretKey : String) :
    calcSign hmacSha256Base64 url paramStr ts secretKey =
      hmacSha256Base64 secretKey (toString ts ++ "." ++ url ++ "." ++ paramStr) ∧
    (∀ url2 paramStr2 : String, ∀ ts2 : Nat, ∀ secretKey2 : String,
      url2 = url → paramStr2 = paramStr → ts2 = ts → secretKey2 = secretKey →
      calcSign hmacSha256Base64 url2 paramStr2 ts2 secretKey2 =
        calcSign hmacSha256Base64 url paramStr ts secretKey) := by
  refine ⟨rfl, ?_⟩
  intro url2 paramStr2 ts2 secretKey2 h1 h2 h3 h4
  rw [h1, h2, h3, h4]

/-- Witness for `calcSign_signs_exact_string` at concrete inputs. -/
theorem calcSign_signs_exact_string_witness :
    calcSign exHmac "/device/list" "" 1700000000000 "SK" =
      exHmac "SK" (toString 1700000000000 ++ "." ++ "/device/list" ++ "." ++ "") ∧
    calcSign exHmac "/device/list" "" 1700000000000 "SK" =
      calcSign exHmac "/device/list" "" 1700000000000 "SK" :=
  ⟨(calcSign_signs_exact_string exHmac "/device/list" "" 1700000000000 "SK").1,
   (calcSign_signs_exact_string exHmac "/device/list" "" 1700000000000 "SK").2
      "/device/list" "" 1700000000000 "SK" rfl rfl rfl rfl⟩

/-! ## Cache-key unambiguity

Round-trip lemmas for the right-to-left readers against the serializer,
leading to the determinism/injectivity of `getCacheKey`. -/

/-- Reading a reversed escaped quote prepends a quote to the accumulator. -/
theorem rContent_quote_esc (acc rest : List Char) :
    rContent acc ('"' :: '\\' :: rest) = rContent ('"' :: acc) rest := rfl

/-- Reading a reversed escaped backslash prepends a backslash. -/
theorem rContent_bs_bs (acc rest : List Char) :
    rContent acc ('\\' :: '\\' :: rest) = rContent ('\\' :: acc) rest := rfl

/-- A closing quote at the end of input terminates the literal. -/
theorem rContent_quote_end_nil (acc : List Char) :
    rContent acc ['"'] = some (acc, []) := rfl

/-- A quote not followed by a backslash terminates the literal. -/
theorem rContent_quote_end (acc : List Char) (r : Char) (rest : List Char)
    (h : ¬ r = '\\') :
    rContent acc ('"' :: r :: rest) = some (acc, r :: rest) := by
  rw [rContent.eq_def]
  dsimp only
  rw [if_pos rfl, if_neg h]

/-- An ordinary character is accumulated. -/
theorem rContent_plain (acc : List Char) (c : Char) (rest : List Char)
    (h1 : ¬ c = '"') (h2 : ¬ c = '\\') :
    rContent acc (c :: rest) = rContent (c :: acc) rest := by
  rw [rContent.eq_def]
  dsimp only
  rw [if_neg h1, if_neg h2]

/-- Consuming the reversed escaped text of `s` moves `s` onto the
accumulator. -/
theorem rContent_escape (s : List Char) : ∀ acc more : List Char,
    rContent acc ((escape s).reverse ++ more) = rContent (s ++ acc) more := by
  induction s with
  | nil => intro acc more; rfl
  | cons c t ih =>
    intro acc more
    rw [escape, List.reverse_append, List.append_assoc, ih acc]
    by_cases h1 : c = '"'
    · subst h1
      rw [show escChar '"' = ['\\', '"'] from by rw [escChar, if_pos (Or.inl rfl)]]
      rw [show (['\\', '"'] : List Char).reverse = ['"', '\\'] from rfl]
      rw [show ('"' :: '\\' :: ([] : List Char)) ++ more = '"' :: '\\' :: more from rfl]
      rw [rContent_quote_esc]
      rfl
    · by_cases h2 : c = '\\'
      · subst h2
        rw [show escChar '\\' = ['\\', '\\'] from by rw [escChar, if_pos (Or.inr rfl)]]
        rw [show (['\\', '\\'] : List Char).reverse = ['\\', '\\'] from rfl]
        rw [show ('\\' :: '\\' :: ([] : List Char)) ++ more = '\\' :: '\\' :: more from rfl]
        rw [rContent_bs_bs]
        rfl
      · rw [show escChar c = [c] from by rw [escChar, if_neg (by tauto)]]
        rw [show ([c] : List Char).reverse = [c] from rfl]
        rw [show ([c] : List Char) ++ more = c :: more from rfl]
        rw [rContent_plain _ c more h1 h2]
        rfl

/-- The reversed serialized string literal, in head-first form. -/
theorem serStr_reverse (s : String) :
    (serStr s).reverse = '"' :: ((escape s.data).reverse ++ ['"']) := by
  simp [serStr]

/-- Round trip for string literals: reading the reversed literal recovers
the contents (the continuation must not begin with a backslash, which is
true wherever `rStr` is invoked below). -/
theorem rStr_serStr (s : String) (more : List Char)
    (h : ∀ r t, more = r :: t → ¬ r = '\\') :
    rStr ((serStr s).reverse ++ more) = some (s.data, more) := by
  rw [serStr_reverse]
  rw [show ('"' :: ((escape s.data).reverse ++ ['"'])) ++ more
      = '"' :: ((escape s.data).reverse ++ ('"' :: more)) from by simp]
  rw [rStr, if_pos rfl]
  rw [rContent_escape s.data [] ('"' :: more), List.append_nil]
  cases more with
  | nil => exact rContent_quote_end_nil s.data
  | cons r t => exact rContent_quote_end s.data r t (h r t rfl)

/-- `digitChar` round trip on its code point. -/
theorem digitChar_toNat (d : Nat) (h : d < 10) : (digitChar d).toNat = 48 + d := by
  interval_cases d <;> rfl

/-- `digitChar` lands in the ASCII digit range. -/
theorem digitChar_is_digit (d : Nat) (h : d < 10) :
    48 ≤ (digitChar d).toNat ∧ (digitChar d).toNat ≤ 57 := by
  rw [digitChar_toNat d h]
  omega

/-- `natDigitsRev` begins with an ASCII digit. -/
theorem natDigitsRev_shape (n : Nat) :
    ∃ c t, natDigitsRev n = c :: t ∧ 48 ≤ c.toNat ∧ c.toNat ≤ 57 := by
  rw [natDigitsRev]
  split
  · next h =>
    exact ⟨digitChar n, [], rfl, digitChar_is_digit n h⟩
  · next h =>
    exact ⟨digitChar (n % 10), natDigitsRev (n / 10), rfl,
      digitChar_is_digit (n % 10) (Nat.mod_lt n (by omega))⟩

/-- Round trip for the digit reader over least-significant-first digits:
it reconstructs `n` at place value `pow` and stops at the first non-digit. -/
theorem rDigits_natDigitsRev (n : Nat) : ∀ (acc pow : Nat) (more : List Char),
    (∀ c t, more = c :: t → ¬ (48 ≤ c.toNat ∧ c.toNat ≤ 57)) →
    rDigits (natDigitsRev n ++ more) acc pow = (acc + n * pow, more) := by
  induction n using Nat.strong_induction_on with
  | _ n ih =>
    intro acc pow more hmore
    rw [natDigitsRev]
    split
    · next h =>
      rw [show [digitChar n] ++ more = digitChar n :: more from rfl]
      rw [rDigits, if_pos (digitChar_is_digit n h)]
      rw [digitChar_toNat n h]
      rw [show 48 + n - 48 = n from by omega]
      cases more with
      | nil => rw [rDigits]
      | cons c t => rw [rDigits, if_neg (hmore c t rfl)]
    · next h =>
      rw [List.cons_append]
      rw [rDigits, if_pos (digitChar_is_digit (n % 10) (Nat.mod_lt n (by omega)))]
      rw [digitChar_toNat (n % 10) (Nat.mod_lt n (by omega))]
      rw [show 48 + n % 10 - 48 = n % 10 from by omega]
      rw [ih (n / 10) (Nat.div_lt_self (by omega) (by omega))
        (acc + n % 10 * pow) (pow * 10) more hmore]
      have hsplit : n = 10 * (n / 10) + n % 10 := (Nat.div_add_mod n 10).symm
      congr 1
      conv_rhs => rw [hsplit]
      ring

/-- Round trip for integers: reading the reversed decimal printing of `n`
recovers `n` (the continuation must not begin with a digit or a minus
sign; wherever `rNum` is invoked the next character is `:`). -/
theorem rNum_intChars (n : Int) (more : List Char)
    (hd : ∀ c t, more = c :: t → ¬ (48 ≤ c.toNat ∧ c.toNat ≤ 57))
    (hm : ∀ t, more ≠ '-' :: t) :
    rNum ((intChars n).reverse ++ more) = some (n, more) := by
  obtain ⟨c, t, hct, hc1, hc2⟩ := natDigitsRev_shape n.natAbs
  by_cases hneg : n < 0
  · rw [intChars, if_pos hneg]
    rw [show ('-' :: natChars n.natAbs).reverse ++ more
        = natDigitsRev n.natAbs ++ ('-' :: more) from by simp [natChars]]
    rw [hct, List.cons_append, rNum, if_pos ⟨hc1, hc2⟩, ← List.cons_append, ← hct]
    rw [rDigits_natDigitsRev n.natAbs 0 1 ('-' :: more)
      (by intro c' t' h'
          injection h' with h1 h2
          subst h1
          decide)]
    dsimp only
    rw [if_pos rfl]
    rw [show (0 + n.natAbs * 1 : Nat) = n.natAbs from by omega]
    rw [show (-(n.natAbs : Int)) = n from by omega]
  · rw [intChars, if_neg hneg]
    rw [show (natChars n.natAbs).reverse ++ more
        = natDigitsRev n.natAbs ++ more from by simp [natChars]]
    rw [hct, List.cons_append, rNum, if_pos ⟨hc1, hc2⟩, ← List.cons_append, ← hct]
    rw [rDigits_natDigitsRev n.natAbs 0 1 more hd]
    have hval : ((n.natAbs : Int)) = n := by omega
    cases more with
    | nil =>
      dsimp only
      rw [show (0 + n.natAbs * 1 : Nat) = n.natAbs from by omega, hval]
    | cons m mt =>
      have hm' : ¬ (m = '-') := fun h => hm mt (by rw [h])
      dsimp only
      rw [if_neg hm']
      rw [show (0 + n.natAbs * 1 : Nat) = n.natAbs from by omega, hval]

/-- The reversed serialized value begins with a quote or an ASCII digit. -/
theorem serVal_reverse_shape (v : PVal) :
    ∃ c t, (serVal v).reverse = c :: t ∧
      (c = '"' ∨ (48 ≤ c.toNat ∧ c.toNat ≤ 57)) := by
  cases v with
  | pStr s =>
    exact ⟨'"', (escape s.data).reverse ++ ['"'], by rw [serVal, serStr_reverse], Or.inl rfl⟩
  | pNum n =>
    obtain ⟨c, t, hct, hc1, hc2⟩ := natDigitsRev_shape n.natAbs
    by_cases hneg : n < 0
    · refine ⟨c, t ++ ['-'], ?_, Or.inr ⟨hc1, hc2⟩⟩
      rw [serVal, intChars, if_pos hneg]
      simp [natChars, hct]
    · refine ⟨c, t, ?_, Or.inr ⟨hc1, hc2⟩⟩
      rw [serVal, intChars, if_neg hneg]
      simp [natChars, hct]

/-- Round trip for values followed by the member `:`. -/
theorem rVal_serVal (v : PVal) (more : List Char) :
    rVal ((serVal v).reverse ++ (':' :: more)) = some (v, ':' :: more) := by
  cases v with
  | pStr s =>
    rw [serVal, serStr_reverse]
    rw [show ('"' :: ((escape s.data).reverse ++ ['"'])) ++ (':' :: more)
        = '"' :: (((escape s.data).reverse ++ ['"']) ++ (':' :: more)) from rfl]
    rw [rVal, if_pos rfl]
    rw [show '"' :: (((escape s.data).reverse ++ ['"']) ++ (':' :: more))
        = (serStr s).reverse ++ (':' :: more) from by rw [serStr_reverse]; simp]
    rw [rStr_serStr s (':' :: more)
      (by intro r t' h'
          injection h' with h1 h2
          subst h1
          decide)]
    rfl
  | pNum n =>
    obtain ⟨c0, t0, hct0, h01, h02⟩ := natDigitsRev_shape n.natAbs
    have hrev : ∃ t2, (serVal (PVal.pNum n)).reverse = c0 :: t2 := by
      by_cases hneg : n < 0
      · exact ⟨t0 ++ ['-'], by rw [serVal, intChars, if_pos hneg]; simp [natChars, hct0]⟩
      · exact ⟨t0, by rw [serVal, intChars, if_neg hneg]; simp [natChars, hct0]⟩
    obtain ⟨t2, hct⟩ := hrev
    have hne : ¬ (c0 = '"') := by
      intro hq
      rw [hq] at h01
      revert h01
      decide
    rw [hct, List.cons_append, rVal, if_neg hne, ← List.cons_append, ← hct]
    rw [show serVal (.pNum n) = intChars n from rfl]
    rw [rNum_intChars n (':' :: more)
      (by intro c' t' h'
          injection h' with h1 h2
          subst h1
          decide)
      (by intro t' h'
          injection h' with h1 h2
          revert h1
          decide)]
    rfl

/-- Round trip for one member (the continuation must not begin with a
backslash; where `rPair` is invoked it begins with `,` or `{`). -/
theorem rPair_serPair (p : String × PVal) (more : List Char)
    (h : ∀ r t, more = r :: t → ¬ r = '\\') :
    rPair ((serPair p).reverse ++ more) = some (p, more) := by
  obtain ⟨k, v⟩ := p
  rw [show serPair (k, v) = serStr k ++ ':' :: serVal v from rfl]
  rw [show (serStr k ++ ':' :: serVal v).reverse ++ more
      = (serVal v).reverse ++ (':' :: ((serStr k).reverse ++ more)) from by simp]
  rw [rPair, rVal_serVal v ((serStr k).reverse ++ more)]
  dsimp only
  rw [if_pos rfl]
  rw [rStr_serStr k more h]

/-- `serPairs` over a snoc: the last member is appended after a comma. -/
theorem serPairs_snoc (qs : List (String × PVal)) (q0 p : String × PVal) :
    serPairs ((q0 :: qs) ++ [p]) = serPairs (q0 :: qs) ++ ',' :: serPair p := by
  induction qs generalizing q0 with
  | nil => rfl
  | cons b u ih =>
    have h1 : serPairs ((q0 :: b :: u) ++ [p])
        = serPair q0 ++ ',' :: serPairs ((b :: u) ++ [p]) := rfl
    have h2 : serPairs (q0 :: b :: u) = serPair q0 ++ ',' :: serPairs (b :: u) := rfl
    rw [h1, ih b, h2]
    simp

/-- Serialization never shortens a member list. -/
theorem serPairs_length (ps : List (String × PVal)) :
    ps.length ≤ (serPairs ps).length := by
  induction ps with
  | nil => simp [serPairs]
  | cons a t ih =>
    cases t with
    | nil => simp [serPairs, serPair, serStr]
    | cons b u =>
      have h1 : serPairs (a :: b :: u) = serPair a ++ ',' :: serPairs (b :: u) := rfl
      rw [h1]
      have h2 : 1 ≤ (serPair a).length := by
        simp [serPair, serStr]
      simp only [List.length_append, List.length_cons] at ih ⊢
      omega

/-- The reversed serialization of a non-empty member list begins with a
quote or an ASCII digit (the last character of the last member's value). -/
theorem serPairs_reverse_shape (ps : List (String × PVal)) (hne : ps ≠ []) :
    ∃ c t, (serPairs ps).reverse = c :: t ∧
      (c = '"' ∨ (48 ≤ c.toNat ∧ c.toNat ≤ 57)) := by
  rcases List.eq_nil_or_concat ps with rfl | ⟨qs, p, rfl⟩
  · exact absurd rfl hne
  · obtain ⟨c, t, hct, hcp⟩ := serVal_reverse_shape p.2
    have hpair : (serPair p).reverse = c :: (t ++ (':' :: (serStr p.1).reverse)) := by
      rw [show serPair p = serStr p.1 ++ ':' :: serVal p.2 from rfl]
      simp [hct]
    cases qs with
    | nil =>
      exact ⟨c, t ++ (':' :: (serStr p.1).reverse), by
        rw [List.concat_eq_append, List.nil_append,
          show serPairs [p] = serPair p from rfl, hpair], hcp⟩
    | cons q0 qt =>
      refine ⟨c, (t ++ (':' :: (serStr p.1).reverse)) ++
        (',' :: (serPairs (q0 :: qt)).reverse), ?_, hcp⟩
      rw [List.concat_eq_append, serPairs_snoc qt q0 p]
      simp [hpair]

/-- Round trip for the member loop: with enough fuel (one unit per member)
it consumes the reversed members and the opening brace, restoring the
member list in source order in front of the accumulator. -/
theorem rPairs_serPairs : ∀ (bound : Nat) (ps : List (String × PVal))
    (fuel : Nat) (acc : List (String × PVal)) (more : List Char),
    ps ≠ [] → ps.length ≤ bound → ps.length ≤ fuel →
    rPairs fuel acc ((serPairs ps).reverse ++ (lbrace :: more)) =
      some (ps ++ acc, more) := by
  intro bound
  induction bound with
  | zero =>
    intro ps fuel acc more hne hb _
    rw [Nat.le_zero, List.length_eq_zero] at hb
    exact absurd hb hne
  | succ N ih =>
    intro ps fuel acc more hne hb hfuel
    rcases List.eq_nil_or_concat ps with rfl | ⟨qs, p, rfl⟩
    · exact absurd rfl hne
    · rw [List.concat_eq_append] at hb hfuel ⊢
      cases qs with
      | nil =>
        cases fuel with
        | zero => simp at hfuel
        | succ f =>
          rw [List.nil_append, show serPairs [p] = serPair p from rfl]
          rw [rPairs]
          rw [rPair_serPair p (lbrace :: more)
            (by intro r t h
                injection h with g1 g2
                subst g1
                decide)]
          dsimp only
          rw [if_neg (by decide), if_pos rfl]
          rfl
      | cons q0 qt =>
        cases fuel with
        | zero => simp at hfuel
        | succ f =>
          rw [serPairs_snoc qt q0 p]
          rw [show (serPairs (q0 :: qt) ++ ',' :: serPair p).reverse ++ (lbrace :: more)
              = (serPair p).reverse ++
                  (',' :: ((serPairs (q0 :: qt)).reverse ++ (lbrace :: more)))
            from by simp]
          rw [rPairs]
          rw [rPair_serPair p (',' :: ((serPairs (q0 :: qt)).reverse ++ (lbrace :: more)))
            (by intro r t h
                injection h with g1 g2
                subst g1
                decide)]
          dsimp only
          rw [if_pos rfl]
          rw [ih (q0 :: qt) f (p :: acc) more (by simp)
            (by simp only [List.length_append, List.length_cons] at hb ⊢; omega)
            (by simp only [List.length_append, List.length_cons] at hfuel ⊢; omega)]
          simp

/-- Round trip for whole objects: reading the reversed
`JSON.stringify(params)` recovers the member list exactly, leaving any
continuation untouched. -/
theorem rObj_stringify (ps : List (String × PVal)) (more : List Char) :
    rObj ((stringifyChars ps).reverse ++ more) = some (ps, more) := by
  cases hps : ps with
  | nil => rfl
  | cons p pt =>
    rw [stringifyChars]
    rw [show (lbrace :: (serPairs (p :: pt) ++ [rbrace])).reverse ++ more
        = rbrace :: ((serPairs (p :: pt)).reverse ++ (lbrace :: more)) from by simp]
    rw [rObj.eq_def]
    dsimp only
    rw [if_pos rfl]
    obtain ⟨c, t, hct, hcp⟩ := serPairs_reverse_shape (p :: pt) (by simp)
    rw [hct, List.cons_append]
    dsimp only
    have hne : ¬ (c = lbrace) := by
      rcases hcp with h | ⟨h1, h2⟩
      · rw [h]
        decide
      · intro hq
        rw [hq] at h2
        revert h2
        decide
    rw [if_neg hne]
    rw [← List.cons_append, ← hct]
    have hlen : (p :: pt).length ≤ ((serPairs (p :: pt)).reverse ++ (lbrace :: more)).length := by
      have hsp := serPairs_length (p :: pt)
      simp only [List.length_append, List.length_reverse, List.length_cons] at hsp ⊢
      omega
    rw [rPairs_serPairs (p :: pt).length (p :: pt)
      ((serPairs (p :: pt)).reverse ++ (lbrace :: more)).length [] more
      (by simp) (le_refl _) hlen]
    simp

/-- The character data of a cache key splits as endpoint, `:`, JSON text. -/
theorem getCacheKey_data (endpoint : String) (params : List (String × PVal)) :
    (getCacheKey endpoint params).data = endpoint.data ++ ':' :: stringifyChars params := by
  rw [getCacheKey, jsonStringify]
  change (endpoint ++ ":" ++ { data := stringifyChars params } : String).data = _
  rw [String.data_append, String.data_append]
  rw [show (":" : String).data = [':'] from rfl, List.append_assoc]
  rfl

/-- C5.  `getCacheKey` is deterministic -- equal endpoints and equal
parameter lists (JavaScript objects with their insertion order) give equal
keys -- and injective: equal keys force equal endpoints and equal
parameter lists, so differing parameters (or endpoints) never collide. -/
theorem getCacheKey_deterministic_injective :
    (∀ (e : String) (p : List (String × PVal)) (e2 : String)
        (p2 : List (String × PVal)),
      e = e2 → p = p2 → getCacheKey e p = getCacheKey e2 p2) ∧
    (∀ (e : String) (p : List (String × PVal)) (e2 : String)
        (p2 : List (String × PVal)),
      getCacheKey e p = getCacheKey e2 p2 → e = e2 ∧ p = p2) := by
  constructor
  · intro e p e2 p2 h1 h2
    rw [h1, h2]
  · intro e p e2 p2 h
    have hdata : e.data ++ ':' :: stringifyChars p
        = e2.data ++ ':' :: stringifyChars p2 := by
      rw [← getCacheKey_data, ← getCacheKey_data, h]
    have hrev : (stringifyChars p).reverse ++ (':' :: e.data.reverse)
        = (stringifyChars p2).reverse ++ (':' :: e2.data.reverse) := by
      have := congrArg List.reverse hdata
      simpa using this
    have hobj := rObj_stringify p (':' :: e.data.reverse)
    rw [hrev, rObj_stringify p2 (':' :: e2.data.reverse)] at hobj
    injection hobj with hpair
    injection hpair with hp htail
    injection htail with _ hedata
    refine ⟨?_, hp.symm⟩
    have hd : e2.data = e.data := List.reverse_injective hedata
    cases e with
    | mk d1 =>
      cases e2 with
      | mk d2 =>
        simp only at hd
        rw [hd]

/-- Witness for `getCacheKey_deterministic_injective` at concrete
endpoint/parameter pairs. -/
theorem getCacheKey_deterministic_injective_witness :
    getCacheKey "/device/data/history/x" [("year", PVal.pNum 2024)] =
      getCacheKey "/device/data/history/x" [("year", PVal.pNum 2024)] ∧
    (("/device/data/history/x" : String) = "/device/data/history/x" ∧
      [("year", PVal.pNum 2024)] = [("year", PVal.pNum 2024)]) :=
  ⟨getCacheKey_deterministic_injective.1 "/device/data/history/x"
      [("year", PVal.pNum 2024)] "/device/data/history/x"
      [("year", PVal.pNum 2024)] rfl rfl,
   getCacheKey_deterministic_injective.2 "/device/data/history/x"
      [("year", PVal.pNum 2024)] "/device/data/history/x"
      [("year", PVal.pNum 2024)] rfl⟩
